import Mathlib

/-!
Shallow embedding of the task coordinator / workflow engine of the
`multi_agent_demo` repository (files `workflows/task_coordinator.py` and
`agents/base_agent.py`), together with theorems settling the claims about
its natural-language specification.

Modelling conventions:
* Python dicts become insertion-ordered association lists (`List (String × β)`).
* `datetime` timestamps and `execution_time` floats are not modelled: no claim
  refers to wall-clock values.
* Whether a worker invocation succeeds, raises, or exceeds its timeout on a
  given attempt is an oracle (`AttemptOutcome`), since real time is external
  to the engine.
* Which in-flight tasks `asyncio.wait(..., FIRST_COMPLETED)` reports as done
  is an adversarial schedule (`Nat → List String`), restricted to a nonempty
  subset of the running set, exactly as `asyncio` guarantees.
-/

namespace MultiAgentDemo

/-- `WorkflowStatus` enum from task_coordinator.py. -/
inductive WorkflowStatus where
  | idle | running | paused | completed | failed | cancelled
  deriving DecidableEq, Repr

/-- `TaskResult` dataclass from base_agent.py (timestamps and
`execution_time` omitted; `result` payload abstracted to `Option String`). -/
structure TaskResult where
  agent_id : String
  task_id : String
  status : String
  result : Option String
  error_message : Option String := none
  deriving DecidableEq, Repr

/-- `WorkflowTask` dataclass from task_coordinator.py (timestamps omitted;
the opaque `data` payload abstracted to key/value pairs). -/
structure WorkflowTask where
  task_id : String
  task_type : String
  agent_id : String
  data : List (String × String) := []
  dependencies : List String := []
  priority : Int := 1
  timeout : Nat := 300
  retry_count : Nat := 0
  max_retries : Nat := 3
  status : String := "pending"
  result : Option TaskResult := none
  deriving DecidableEq, Repr

/-- `Workflow` dataclass from task_coordinator.py (timestamps omitted,
`progress` as an exact rational instead of a float: every value the code
assigns is of the form `k / n * 100`, which floats only approximate). -/
structure Workflow where
  workflow_id : String
  name : String
  description : String
  tasks : List WorkflowTask := []
  status : WorkflowStatus := .idle
  progress : Rat := 0
  error_message : Option String := none
  deriving DecidableEq, Repr

/-- `Message` dataclass from base_agent.py (timestamp omitted). -/
structure Message where
  sender : String
  receiver : String
  content : String
  message_type : String := "text"
  metadata : List (String × String) := []
  deriving DecidableEq, Repr

/-- The slice of `BaseAgent` state that the coordinator claims touch:
identity plus the private inbox (`message_history`). -/
structure AgentState where
  agent_id : String
  name : String
  message_history : List Message := []
  deriving DecidableEq, Repr

/-- The `TaskCoordinator` state relevant to the claims: the `agents` and
`workflows` dicts, the global `message_queue`, and the two configuration
fields read by the modelled operations. -/
structure TaskCoordinator where
  agents : List (String × AgentState) := []
  workflows : List (String × Workflow) := []
  message_queue : List Message := []
  max_concurrent_tasks : Nat := 5
  default_timeout : Nat := 300
  deriving DecidableEq, Repr

/-! ### Dict and Python-slice helpers -/

/-- First-match lookup in an association list; models `d[k]` / `k in d` for a
Python dict (whose keys are unique, so first match is the only match). -/
def dictFind (k : String) : List (String × β) → Option β
  | [] => none
  | (k', v) :: rest => if k' = k then some v else dictFind k rest

/-- Models `k in d`. -/
def dictContains (k : String) (m : List (String × β)) : Bool :=
  (dictFind k m).isSome

/-- Replace the value stored under `k`; models `d[k] = v` for an existing key. -/
def dictUpdate (k : String) (v : β) (m : List (String × β)) : List (String × β) :=
  m.map (fun p => if p.1 = k then (k, v) else p)

/-- Python's `l[:n]` for an `int` bound `n`: nonnegative `n` keeps the first
`n` elements; negative `n` keeps all but the last `-n` (empty if `len+n ≤ 0`). -/
def pyslice (n : Int) (l : List α) : List α :=
  if 0 ≤ n then l.take n.toNat else l.take ((l.length : Int) + n).toNat

@[simp] theorem dictFind_nil (k : String) : dictFind k ([] : List (String × β)) = none := rfl

@[simp] theorem dictFind_cons (k k' : String) (v : β) (rest : List (String × β)) :
    dictFind k ((k', v) :: rest) = if k' = k then some v else dictFind k rest := rfl

theorem pyslice_length_le (n : Int) (hn : 0 ≤ n) (l : List α) :
    (pyslice n l).length ≤ n.toNat := by
  simp only [pyslice, if_pos hn]
  exact List.length_take_le _ _

theorem pyslice_sublist (n : Int) (l : List α) : (pyslice n l).Sublist l := by
  unfold pyslice
  split <;> exact List.take_sublist _ _

theorem contains_true_iff {l : List String} {a : String} :
    l.contains a = true ↔ a ∈ l := List.elem_iff

theorem contains_false_iff {l : List String} {a : String} :
    l.contains a = false ↔ a ∉ l := by
  constructor
  · intro h hmem
    rw [contains_true_iff.mpr hmem] at h
    cases h
  · intro h
    cases hc : l.contains a
    · rfl
    · exact absurd (contains_true_iff.mp hc) h

/-! ### Readiness resolution: `TaskCoordinator._get_ready_tasks` -/

/-- Insert a task into a list so that it lands before the first element whose
priority is `≤` its own. Used to realise a stable descending sort. -/
def insertDesc (t : WorkflowTask) : List WorkflowTask → List WorkflowTask
  | [] => [t]
  | u :: us => if u.priority ≤ t.priority then t :: u :: us else u :: insertDesc t us

/-- Stable sort by descending `priority`.  Python's `list.sort(key=...,
reverse=True)` is a stable descending sort, and a stable sort is uniquely
determined by the comparison key and the input order, so this insertion sort
computes exactly the list the source's sort produces. -/
def sortByPriorityDesc : List WorkflowTask → List WorkflowTask
  | [] => []
  | t :: ts => insertDesc t (sortByPriorityDesc ts)

/-- The filter condition of `_get_ready_tasks`: the task is skipped when its
id is in the completed set, its id is in the running dict, or its status is
`"completed"` or `"running"`; otherwise it is ready iff every dependency id is
in the completed set. -/
def readyFilter (completed running : List String) (t : WorkflowTask) : Bool :=
  !(completed.contains t.task_id || running.contains t.task_id ||
      t.status == "completed" || t.status == "running") &&
    t.dependencies.all (fun dep => completed.contains dep)

/-- `TaskCoordinator._get_ready_tasks`: filter the workflow's tasks by
`readyFilter`, then sort by descending priority (stably, hence ties keep
the original insertion order). -/
def get_ready_tasks (tasks : List WorkflowTask) (completed running : List String) :
    List WorkflowTask :=
  sortByPriorityDesc (tasks.filter (readyFilter completed running))

@[simp] theorem mem_insertDesc {x t : WorkflowTask} {l : List WorkflowTask} :
    x ∈ insertDesc t l ↔ x = t ∨ x ∈ l := by
  induction l with
  | nil => simp [insertDesc]
  | cons u us ih =>
    simp only [insertDesc]
    split
    · simp
    · simp only [List.mem_cons, ih]
      tauto

@[simp] theorem mem_sortByPriorityDesc {x : WorkflowTask} {l : List WorkflowTask} :
    x ∈ sortByPriorityDesc l ↔ x ∈ l := by
  induction l with
  | nil => simp [sortByPriorityDesc]
  | cons t ts ih => simp [sortByPriorityDesc, ih]

theorem pairwise_insertDesc {t : WorkflowTask} {l : List WorkflowTask}
    (h : l.Pairwise (fun a b => b.priority ≤ a.priority)) :
    (insertDesc t l).Pairwise (fun a b => b.priority ≤ a.priority) := by
  induction l with
  | nil => simp [insertDesc]
  | cons u us ih =>
    simp only [insertDesc]
    rcases List.pairwise_cons.mp h with ⟨hu, hus⟩
    split
    · rename_i hle
      refine List.pairwise_cons.mpr ⟨?_, h⟩
      intro b hb
      rcases List.mem_cons.mp hb with rfl | hb
      · exact hle
      · exact le_trans (hu b hb) hle
    · rename_i hgt
      push_neg at hgt
      refine List.pairwise_cons.mpr ⟨?_, ih hus⟩
      intro b hb
      rcases mem_insertDesc.mp hb with rfl | hb
      · exact le_of_lt hgt
      · exact hu b hb

theorem pairwise_sortByPriorityDesc (l : List WorkflowTask) :
    (sortByPriorityDesc l).Pairwise (fun a b => b.priority ≤ a.priority) := by
  induction l with
  | nil => simp [sortByPriorityDesc]
  | cons t ts ih => exact pairwise_insertDesc ih

theorem filter_insertDesc (t : WorkflowTask) (l : List WorkflowTask) (p : Int) :
    (insertDesc t l).filter (fun u => u.priority == p) =
      if t.priority == p then t :: l.filter (fun u => u.priority == p)
      else l.filter (fun u => u.priority == p) := by
  induction l with
  | nil => simp [insertDesc, List.filter_cons]
  | cons u us ih =>
    by_cases ht : (t.priority == p) = true <;> by_cases hu : (u.priority == p) = true
    · simp only [insertDesc]
      split
      · simp [List.filter_cons, ht, hu]
      · rename_i hgt
        push_neg at hgt
        have ht' : t.priority = p := beq_iff_eq.mp ht
        have hu' : u.priority = p := beq_iff_eq.mp hu
        omega
    · simp only [insertDesc]
      split
      · simp [List.filter_cons, ht, hu]
      · simp [List.filter_cons, ht, hu, ih]
    · simp only [insertDesc]
      split
      · simp [List.filter_cons, ht, hu]
      · simp [List.filter_cons, ht, hu, ih]
    · simp only [insertDesc]
      split
      · simp [List.filter_cons, ht, hu]
      · simp [List.filter_cons, ht, hu, ih]

/-- Stability of the sort: for each priority value the sorted list restricted
to that priority is exactly the input restricted to that priority, in order. -/
theorem filter_sortByPriorityDesc (l : List WorkflowTask) (p : Int) :
    (sortByPriorityDesc l).filter (fun u => u.priority == p) =
      l.filter (fun u => u.priority == p) := by
  induction l with
  | nil => rfl
  | cons t ts ih =>
    simp only [sortByPriorityDesc, filter_insertDesc, ih, List.filter_cons]

/-! ### Single task execution: `TaskCoordinator._execute_single_task` over
`BaseAgent.execute_task` -/

/-- Oracle for one invocation of `asyncio.wait_for(agent.execute_task(...),
timeout=task.timeout)`:
* `returns r` — `process_task` returned the `TaskResult` `r`;
* `raises msg` — `process_task` raised an exception whose string is `msg`;
* `timesOut` — the invocation exceeded `task.timeout`, so `wait_for` raises
  `asyncio.TimeoutError`. -/
inductive AttemptOutcome where
  | returns (r : TaskResult)
  | raises (msg : String)
  | timesOut
  deriving DecidableEq, Repr

/-- What `asyncio.wait_for(agent.execute_task(task_data), task.timeout)`
yields for one attempt: `none` models the `TimeoutError`.  Crucially,
`BaseAgent.execute_task` catches every exception `process_task` raises and
RETURNS a `TaskResult(status="failed", error_message=str(e))` instead of
re-raising (base_agent.py, `except` branch), so a worker-reported failure
reaches the coordinator as a normal return value.  (The agent's own
`status`/history bookkeeping is not modelled; no claim reads it.) -/
def executeTaskResult (agent_id task_id : String) (o : AttemptOutcome) :
    Option TaskResult :=
  match o with
  | .returns r => some r
  | .raises msg => some { agent_id := agent_id, task_id := task_id,
                          status := "failed", result := none,
                          error_message := some msg }
  | .timesOut => none

/-- The timeout error message built by `_execute_single_task`. -/
def timeout_msg (t : WorkflowTask) : String :=
  "任务超时: " ++ t.task_id ++ " (超时时间: " ++ toString t.timeout ++ "s)"

/-- The `TaskResult` recorded on a timed-out attempt. -/
def timeout_result (t : WorkflowTask) : TaskResult :=
  { agent_id := t.agent_id, task_id := t.task_id, status := "failed",
    result := none, error_message := some (timeout_msg t) }

/-- The task state after a timed-out attempt that still has retry budget:
result recorded, `retry_count` incremented, status reset to `"pending"`. -/
def retry_task (t : WorkflowTask) : WorkflowTask :=
  { t with result := some (timeout_result t), retry_count := t.retry_count + 1,
           status := "pending" }

/-- The task state after a timed-out attempt with no retry budget left. -/
def fail_task (t : WorkflowTask) : WorkflowTask :=
  { t with result := some (timeout_result t), status := "failed" }

/-- Fuel-indexed body of `_execute_single_task`.  Returns the final task
state, the outcome of the coroutine (`Except.error` models the `raise` after
retries are exhausted), and the number of attempts made.  The fuel only
bounds the recursion: the wrapper passes `max_retries - retry_count + 1`,
an exact upper bound on the number of attempts, so the zero-fuel branch is
unreachable (see `execute_single_task_eq`). -/
def execSingleGo (beh : Nat → AttemptOutcome) :
    Nat → Nat → WorkflowTask → WorkflowTask × Except String TaskResult × Nat
  | 0, _, t => (t, Except.error "fuel exhausted", 0)
  | b + 1, i, t =>
    match executeTaskResult t.agent_id t.task_id (beh i) with
    | some r =>
      -- the invocation returned: the coordinator records the result and marks
      -- the task completed — even when `r.status = "failed"`.
      ({ t with result := some r, status := "completed" }, Except.ok r, 1)
    | none =>
      -- asyncio.TimeoutError branch
      if t.retry_count < t.max_retries then
        let out := execSingleGo beh b (i + 1) (retry_task t)
        (out.1, out.2.1, out.2.2 + 1)
      else
        (fail_task t, Except.error (timeout_msg t), 1)

/-- `TaskCoordinator._execute_single_task`, with `beh i` the outcome of the
`i`-th invocation attempt.  (The `self.task_history.append` bookkeeping on
the success path is not modelled; no claim reads it.) -/
def execute_single_task (beh : Nat → AttemptOutcome) (i : Nat) (t : WorkflowTask) :
    WorkflowTask × Except String TaskResult × Nat :=
  execSingleGo beh (t.max_retries - t.retry_count + 1) i t

/-- One-step unfolding of `execute_single_task`, eliminating the fuel:
this is the recursion actually written in `_execute_single_task`. -/
theorem execute_single_task_eq (beh : Nat → AttemptOutcome) (i : Nat)
    (t : WorkflowTask) :
    execute_single_task beh i t =
      match executeTaskResult t.agent_id t.task_id (beh i) with
      | some r => ({ t with result := some r, status := "completed" }, Except.ok r, 1)
      | none =>
        if t.retry_count < t.max_retries then
          let out := execute_single_task beh (i + 1) (retry_task t)
          (out.1, out.2.1, out.2.2 + 1)
        else
          (fail_task t, Except.error (timeout_msg t), 1) := by
  unfold execute_single_task
  conv_lhs => rw [execSingleGo]
  cases executeTaskResult t.agent_id t.task_id (beh i) with
  | some r => rfl
  | none =>
    by_cases h : t.retry_count < t.max_retries
    · simp only [if_pos h]
      have hfuel : t.max_retries - t.retry_count =
          (retry_task t).max_retries - (retry_task t).retry_count + 1 := by
        simp only [retry_task]
        omega
      rw [hfuel]
    · simp only [if_neg h]

theorem execSingleGo_task_id (beh : Nat → AttemptOutcome) (b i : Nat)
    (t : WorkflowTask) : (execSingleGo beh b i t).1.task_id = t.task_id := by
  induction b generalizing i t with
  | zero => rfl
  | succ b ih =>
    rw [execSingleGo]
    cases executeTaskResult t.agent_id t.task_id (beh i) with
    | some r => rfl
    | none =>
      by_cases h : t.retry_count < t.max_retries
      · simp only [if_pos h]
        exact ih (i + 1) (retry_task t)
      · simp only [if_neg h]; rfl

/-- The final task state keeps the task's id (mutations touch only
`result`, `status`, `retry_count`). -/
theorem execute_single_task_task_id (beh : Nat → AttemptOutcome) (i : Nat)
    (t : WorkflowTask) : (execute_single_task beh i t).1.task_id = t.task_id :=
  execSingleGo_task_id beh _ i t

/-! ### The scheduler loop: `TaskCoordinator._execute_workflow_tasks`

The loop's per-execution mutable view: the workflow's task list (whose task
objects the loop and the in-flight coroutines mutate), the `completed_tasks`
set, the keys of the `running_tasks` dict, and the workflow's `progress`
field.  A dispatched coroutine's mutations of its task object are applied
when the scheduler processes its completion; this is observationally
equivalent for the scheduler, which never reads a task's fields while its id
is in `running_tasks` (readiness skips running ids, and the dead-end check
reads only `completed_tasks`). -/

structure ExecState where
  tasks : List WorkflowTask
  completed : List String := []
  running : List String := []
  progress : Rat := 0
  deriving DecidableEq, Repr

/-- Result of the start phase of one loop iteration: the ready list is
computed, `available_slots = max_concurrent_tasks - len(running_tasks)`
tasks are taken from it (`ready_tasks[:available_slots]`), each started task
is marked `"running"`, and their ids join the running set. -/
structure StartResult where
  tasks : List WorkflowTask
  running : List String
  ready : List WorkflowTask
  deriving DecidableEq, Repr

def startPhase (maxC : Nat) (st : ExecState) : StartResult :=
  let ready := get_ready_tasks st.tasks st.completed st.running
  let toStart := pyslice ((maxC : Int) - st.running.length) ready
  let ids := toStart.map (fun t => t.task_id)
  { tasks := st.tasks.map (fun t =>
      if ids.contains t.task_id then { t with status := "running" } else t),
    running := st.running ++ ids,
    ready := ready }

/-- The nonempty subset of the running set that `asyncio.wait(...,
FIRST_COMPLETED)` reports as done, chosen adversarially by `choice`; if the
choice picks nothing, the first in-flight task completes (the wait always
returns at least one done task). -/
def pickDone (choice running : List String) : List String :=
  let d := running.filter (fun id => choice.contains id)
  if d.isEmpty then running.take 1 else d

/-- Process one done task id: apply the coroutine's final task state, delete
the id from the running dict, `add` it to the completed set, and write
`progress = len(completed) / len(tasks) * 100`. -/
def processOne (beh : String → Nat → AttemptOutcome) (id : String)
    (st : ExecState) : ExecState :=
  let tasks' := match st.tasks.find? (fun t => t.task_id == id) with
    | some t => st.tasks.map (fun u =>
        if u.task_id = id then (execute_single_task (beh id) 0 t).1 else u)
    | none => st.tasks
  let completed' := if st.completed.contains id then st.completed
                    else st.completed ++ [id]
  { tasks := tasks', completed := completed', running := st.running.erase id,
    progress := (completed'.length : Rat) / (tasks'.length : Rat) * 100 }

/-- Process the done tasks of one wait round, in running-dict order.  Also
returns the list of progress values written, in order. -/
def processDone (beh : String → Nat → AttemptOutcome) :
    List String → ExecState → ExecState × List Rat
  | [], st => (st, [])
  | id :: rest, st =>
    let st' := processOne beh id st
    let out := processDone beh rest st'
    (out.1, st'.progress :: out.2)

/-- The `(task.task_id, missing dependency)` edges enumerated by the
dead-end check, rendered `"task -> dep"` as in the source. -/
def unresolved_pairs (remaining : List WorkflowTask) (completed : List String) :
    List String :=
  remaining.flatMap (fun t =>
    (t.dependencies.filter (fun dep => !(completed.contains dep))).map
      (fun dep => t.task_id ++ " -> " ++ dep))

/-- Outcome of one iteration of the `while` loop. -/
inductive StepResult where
  /-- the loop goes around again -/
  | next (st : ExecState)
  /-- the `break` at the bottom of the dead-end check fired with no
  remaining tasks -/
  | brk (st : ExecState)
  /-- `raise Exception(f"任务依赖无法解决: {unresolved_deps}")` -/
  | err (st : ExecState) (pairs : List String)
  deriving DecidableEq, Repr

/-- One iteration of the `while` loop of `_execute_workflow_tasks`: start
ready tasks up to the concurrency limit, await at least one completion if
anything is in flight, then run the dead-end check on the (stale) ready
list and the now-current running set. -/
def schedStep (beh : String → Nat → AttemptOutcome) (choice : List String)
    (maxC : Nat) (st : ExecState) : StepResult × List Rat :=
  let sp := startPhase maxC st
  let st1 : ExecState := { tasks := sp.tasks, completed := st.completed,
                           running := sp.running, progress := st.progress }
  let pr := if sp.running.isEmpty then (st1, ([] : List Rat))
            else processDone beh (pickDone choice sp.running) st1
  let st2 := pr.1
  let ws := pr.2
  if sp.ready.isEmpty && st2.running.isEmpty then
    let remaining := st2.tasks.filter (fun t => !(st2.completed.contains t.task_id))
    if remaining.isEmpty then (.brk st2, ws)
    else (.err st2 (unresolved_pairs remaining st2.completed), ws)
  else (.next st2, ws)

/-- The state carried by a step result. -/
def stepResultState : StepResult → ExecState
  | .next st => st
  | .brk st => st
  | .err st _ => st

/-- Terminal result of the loop. -/
inductive LoopResult where
  | finished (st : ExecState)
  | depsFailed (st : ExecState) (pairs : List String)
  /-- model artifact: the iteration fuel ran out while the Python loop would
  still be going (e.g. `max_concurrent_tasks = 0` livelocks the source) -/
  | outOfFuel (st : ExecState)
  deriving DecidableEq, Repr

/-- The loop's result together with the state at every iteration boundary
and every value written to `workflow.progress`, in order. -/
structure LoopTrace where
  result : LoopResult
  states : List ExecState
  writes : List Rat
  deriving DecidableEq, Repr

/-- The `while len(completed_tasks) < len(workflow.tasks)` loop. -/
def runLoop (beh : String → Nat → AttemptOutcome) (sched : Nat → List String)
    (maxC : Nat) : Nat → Nat → ExecState → LoopTrace
  | 0, _, st => { result := .outOfFuel st, states := [st], writes := [] }
  | fuel + 1, k, st =>
    if st.completed.length < st.tasks.length then
      match schedStep beh (sched k) maxC st with
      | (.next st', ws) =>
        let tr := runLoop beh sched maxC fuel (k + 1) st'
        { result := tr.result, states := st :: tr.states, writes := ws ++ tr.writes }
      | (.brk st', ws) =>
        { result := .finished st', states := [st, st'], writes := ws }
      | (.err st' pairs, ws) =>
        { result := .depsFailed st' pairs, states := [st, st'], writes := ws }
    else
      { result := .finished st, states := [st], writes := [] }

/-- The loop's initial per-execution view of a workflow:
`completed_tasks = set()`, `running_tasks = {}`. -/
def initState (wf : Workflow) : ExecState :=
  { tasks := wf.tasks, completed := [], running := [], progress := wf.progress }

/-! ### Workflow lifecycle: `TaskCoordinator.execute_workflow`, and the
definition-time operations -/

/-- Outcome of `execute_workflow(workflow_id)`.  The source mutates the
workflow object in place and either returns it or re-raises; the outcome
carries the resulting coordinator state (and workflow) where one exists.
`unknownWorkflow` is the `ValueError` raised before anything is mutated. -/
inductive ExecOutcome where
  | unknownWorkflow (msg : String)
  | completedOk (c : TaskCoordinator) (wf : Workflow)
  /-- the workflow was marked failed with `error_message = str(e)` and the
  exception re-raised to the caller -/
  | raisedFailed (c : TaskCoordinator) (wf : Workflow) (msg : String)
  /-- model artifact: loop fuel exhausted -/
  | fuelExhausted (c : TaskCoordinator)
  deriving DecidableEq, Repr

/-- `str(e)` for the unresolved-dependency exception.  (Python renders the
list with brackets and quotes; the enumeration content is identical.) -/
def deps_err_msg (pairs : List String) : String :=
  "任务依赖无法解决: " ++ String.intercalate ", " pairs

/-- `TaskCoordinator.execute_workflow`: look the workflow up (raising before
any mutation if the id is absent), mark it running, run the task loop, then
mark it completed with `progress = 100.0` — or, if the loop raised, mark it
failed carrying `str(e)` and re-raise. -/
def execute_workflow (beh : String → Nat → AttemptOutcome)
    (sched : Nat → List String) (fuel : Nat) (c : TaskCoordinator)
    (workflow_id : String) : ExecOutcome :=
  match dictFind workflow_id c.workflows with
  | none => .unknownWorkflow ("工作流不存在: " ++ workflow_id)
  | some wf =>
    let wf1 := { wf with status := WorkflowStatus.running }
    let tr := runLoop beh sched c.max_concurrent_tasks fuel 0 (initState wf1)
    match tr.result with
    | .finished st =>
      let wf2 := { wf1 with tasks := st.tasks, status := .completed, progress := 100 }
      .completedOk { c with workflows := dictUpdate workflow_id wf2 c.workflows } wf2
    | .depsFailed st pairs =>
      let msg := deps_err_msg pairs
      let wf2 := { wf1 with tasks := st.tasks, progress := st.progress,
                            status := .failed, error_message := some msg }
      .raisedFailed { c with workflows := dictUpdate workflow_id wf2 c.workflows } wf2 msg
    | .outOfFuel st =>
      let wf2 := { wf1 with tasks := st.tasks, progress := st.progress }
      .fuelExhausted { c with workflows := dictUpdate workflow_id wf2 c.workflows }

/-- `TaskCoordinator.create_task`: raises `ValueError` when the agent id is
not registered, before constructing anything; otherwise builds the task.
`timeout or self.default_timeout` makes both `None` and `0` fall back to the
default. -/
def create_task (c : TaskCoordinator) (task_id task_type agent_id : String)
    (data : List (String × String)) (dependencies : Option (List String))
    (priority : Int) (timeout : Option Nat) : Except String WorkflowTask :=
  if dictContains agent_id c.agents then
    Except.ok
      { task_id := task_id, task_type := task_type, agent_id := agent_id,
        data := data, dependencies := dependencies.getD [],
        priority := priority,
        timeout := match timeout with
          | some v => if v ≠ 0 then v else c.default_timeout
          | none => c.default_timeout }
  else Except.error ("Agent不存在: " ++ agent_id)

/-- `TaskCoordinator.add_task_to_workflow`: raises `ValueError` when the
workflow id is absent, before any mutation; otherwise appends the task. -/
def add_task_to_workflow (c : TaskCoordinator) (workflow_id : String)
    (task : WorkflowTask) : Except String TaskCoordinator :=
  match dictFind workflow_id c.workflows with
  | none => Except.error ("工作流不存在: " ++ workflow_id)
  | some wf =>
    let wf2 := { wf with tasks := wf.tasks ++ [task] }
    Except.ok { c with workflows := dictUpdate workflow_id wf2 c.workflows }

/-- `BaseAgent.add_message`: append to the agent's private inbox. -/
def add_message (a : AgentState) (m : Message) : AgentState :=
  { a with message_history := a.message_history ++ [m] }

/-- The `Message` built by `TaskCoordinator.send_message`
(`metadata or {}` maps `None` to the empty dict). -/
def mk_message (sender_id receiver_id content message_type : String)
    (metadata : Option (List (String × String))) : Message :=
  { sender := sender_id, receiver := receiver_id, content := content,
    message_type := message_type, metadata := metadata.getD [] }

/-- `TaskCoordinator.send_message`: raises `ValueError` when the receiver is
not a registered agent, before building or queueing anything; otherwise
appends to the global `message_queue` and hands the message to the
receiver's inbox. -/
def send_message (c : TaskCoordinator) (sender_id receiver_id content : String)
    (message_type : String) (metadata : Option (List (String × String))) :
    Except String TaskCoordinator :=
  match dictFind receiver_id c.agents with
  | none => Except.error ("接收者Agent不存在: " ++ receiver_id)
  | some _ =>
    let m := mk_message sender_id receiver_id content message_type metadata
    Except.ok { c with
      message_queue := c.message_queue ++ [m],
      agents := c.agents.map (fun p =>
        if p.1 = receiver_id then (p.1, add_message p.2 m) else p) }

/-! ### Outcome projections used by the concrete claim theorems -/

/-- The workflow object visible to the caller after `execute_workflow`
(returned on success, attached to the coordinator on a re-raise). -/
def outcome_workflow : ExecOutcome → Option Workflow
  | .completedOk _ wf => some wf
  | .raisedFailed _ wf _ => some wf
  | _ => none

/-- Whether `execute_workflow` re-raised an error to its caller. -/
def outcome_is_raised : ExecOutcome → Bool
  | .raisedFailed _ _ _ => true
  | _ => false

/-! ### Claim C1 — a definitively failed task does not abort the workflow -/

/-- A registered worker. -/
def c1Agent : AgentState := { agent_id := "agent_a", name := "A" }

/-- A task with an exhausted-on-first-failure retry budget. -/
def c1Task : WorkflowTask :=
  { task_id := "t1", task_type := "work", agent_id := "agent_a", max_retries := 0 }

def c1Workflow : Workflow :=
  { workflow_id := "w1", name := "W1", description := "", tasks := [c1Task] }

def c1Coord : TaskCoordinator :=
  { agents := [("agent_a", c1Agent)], workflows := [("w1", c1Workflow)] }

/-- The run: every attempt of every task times out, so `t1` definitively
fails on its first attempt (its budget is 0). -/
def c1Outcome : ExecOutcome :=
  execute_workflow (fun _ _ => .timesOut) (fun _ => ["t1"]) 3 c1Coord "w1"

/-- Claim C1 is violated by the code: after task `t1` definitively fails
(retries exhausted, terminal status `"failed"`), `_execute_single_task`'s
`raise` lands in an `asyncio.Task` whose exception `asyncio.wait` never
retrieves, the scheduler counts the failed task as done, and
`execute_workflow` ends with the workflow `completed`, `progress = 100`,
no `error_message`, and nothing re-raised to the caller — not `failed`
with the task's error surfaced, as the claim states. -/
theorem workflow_completes_despite_exhausted_retries :
    (outcome_workflow c1Outcome).map Workflow.status = some WorkflowStatus.completed
    ∧ (outcome_workflow c1Outcome).map Workflow.error_message = some none
    ∧ (outcome_workflow c1Outcome).map Workflow.progress = some 100
    ∧ (outcome_workflow c1Outcome).map (fun wf => wf.tasks.map WorkflowTask.status)
        = some ["failed"]
    ∧ outcome_is_raised c1Outcome = false := by
  refine ⟨rfl, rfl, ?_, rfl, rfl⟩
  decide

/-! ### Claim C2 — a worker-reported failure is not retried -/

/-- A task with plenty of retry budget. -/
def c2Task : WorkflowTask :=
  { task_id := "t2", task_type := "work", agent_id := "agent_a", max_retries := 3 }

/-- The worker raises `"boom"` on every attempt. -/
def c2Run : WorkflowTask × Except String TaskResult × Nat :=
  execute_single_task (fun _ => .raises "boom") 0 c2Task

/-- Claim C2 is violated by the code: when the worker raises,
`BaseAgent.execute_task` catches the exception and RETURNS a
`TaskResult(status="failed", error_message="boom")`, so
`_execute_single_task` takes its success path: exactly one attempt is made,
the task is marked `"completed"` (not reset to pending), `retry_count`
stays 0, and no retry happens — the coordinator's `except` retry branch is
unreachable for worker-reported failures. -/
theorem worker_error_marks_task_completed_without_retry :
    c2Run.2.2 = 1
    ∧ c2Run.1.status = "completed"
    ∧ c2Run.1.retry_count = 0
    ∧ c2Run.1.result = some { agent_id := "agent_a", task_id := "t2",
                              status := "failed", result := none,
                              error_message := some "boom" }
    ∧ c2Run.2.1 = Except.ok { agent_id := "agent_a", task_id := "t2",
                              status := "failed", result := none,
                              error_message := some "boom" } := by
  exact ⟨rfl, rfl, rfl, rfl, rfl⟩

/-! ### Claim C7 — 1 + 2 attempts happen, but the workflow still ends completed -/

/-- A task with `max_retries = 2` whose every attempt fails (by timeout —
the only failure class the code actually retries, see C2). -/
def c7Task : WorkflowTask :=
  { task_id := "t7", task_type := "work", agent_id := "agent_a", max_retries := 2 }

def c7Run : WorkflowTask × Except String TaskResult × Nat :=
  execute_single_task (fun _ => .timesOut) 0 c7Task

def c7Workflow : Workflow :=
  { workflow_id := "w7", name := "W7", description := "", tasks := [c7Task] }

def c7Coord : TaskCoordinator :=
  { agents := [("agent_a", c1Agent)], workflows := [("w7", c7Workflow)] }

def c7Outcome : ExecOutcome :=
  execute_workflow (fun _ _ => .timesOut) (fun _ => ["t7"]) 3 c7Coord "w7"

/-- Claim C7 is half right: the always-failing task with `max_retries = 2`
is attempted exactly 3 times (1 + 2 retries), ends with terminal status
`"failed"` and `retry_count = 2`, and the exhausted-retries error carries
its timeout message — but the workflow does NOT end failed with that error:
the raised exception is never retrieved from the `asyncio` task, and the
workflow ends `completed` with no error message. -/
theorem three_attempts_but_workflow_still_completes :
    c7Run.2.2 = 3
    ∧ c7Run.1.status = "failed"
    ∧ c7Run.1.retry_count = 2
    ∧ c7Run.2.1 = Except.error (timeout_msg c7Task)
    ∧ (outcome_workflow c7Outcome).map Workflow.status = some WorkflowStatus.completed
    ∧ (outcome_workflow c7Outcome).map Workflow.error_message = some none
    ∧ outcome_is_raised c7Outcome = false := by
  exact ⟨rfl, rfl, rfl, rfl, rfl, rfl, rfl⟩

/-! ### Claim C3 — the ready-set characterization -/

/-- A pending task with no dependencies. -/
def c3Task : WorkflowTask :=
  { task_id := "x", task_type := "work", agent_id := "agent_a" }

/-- Claim C3, as stated, is false: it characterizes the ready set as exactly
the tasks that are pending, not dispatched, and dependency-satisfied — but
`_get_ready_tasks` additionally skips any task whose id is in the completed
set.  Witness: `x` has status `"pending"`, is not dispatched, and all of its
(zero) dependencies are in the completed set `{"x"}`, yet it is not in the
computed ready list. -/
theorem ready_claim_counterexample :
    c3Task.status = "pending"
    ∧ c3Task.task_id ∉ ([] : List String)
    ∧ (∀ dep ∈ c3Task.dependencies, dep ∈ ["x"])
    ∧ c3Task ∉ get_ready_tasks [c3Task] ["x"] [] := by
  refine ⟨rfl, by simp, by simp [c3Task], ?_⟩
  decide

/-- Claim C3 amended to the condition the code tests: membership in the
ready list requires the task's id to be outside the completed set and the
running set, its status to be neither `"completed"` nor `"running"` (not
necessarily `"pending"`), and every dependency id to be completed; the list
is sorted by descending priority and, per priority, preserves the tasks'
original insertion order. -/
theorem ready_tasks_characterization (tasks : List WorkflowTask)
    (completed running : List String) :
    (∀ t, t ∈ get_ready_tasks tasks completed running ↔
        t ∈ tasks ∧ t.task_id ∉ completed ∧ t.task_id ∉ running
          ∧ t.status ≠ "completed" ∧ t.status ≠ "running"
          ∧ ∀ dep ∈ t.dependencies, dep ∈ completed)
    ∧ (get_ready_tasks tasks completed running).Pairwise
        (fun a b => b.priority ≤ a.priority)
    ∧ (∀ p : Int,
        (get_ready_tasks tasks completed running).filter (fun u => u.priority == p)
          = (tasks.filter (readyFilter completed running)).filter
              (fun u => u.priority == p)) := by
  refine ⟨?_, pairwise_sortByPriorityDesc _, fun p => filter_sortByPriorityDesc _ p⟩
  intro t
  rw [get_ready_tasks, mem_sortByPriorityDesc, List.mem_filter]
  constructor
  · rintro ⟨ht, hf⟩
    simp only [readyFilter, Bool.and_eq_true, Bool.not_eq_true', Bool.or_eq_false_iff,
      beq_eq_false_iff_ne, contains_false_iff, contains_true_iff,
      List.all_eq_true] at hf
    exact ⟨ht, hf.1.1.1.1, hf.1.1.1.2, hf.1.1.2, hf.1.2, fun dep hdep => hf.2 dep hdep⟩
  · rintro ⟨ht, h1, h2, h3, h4, h5⟩
    refine ⟨ht, ?_⟩
    simp only [readyFilter, Bool.and_eq_true, Bool.not_eq_true', Bool.or_eq_false_iff,
      beq_eq_false_iff_ne, contains_false_iff, contains_true_iff,
      List.all_eq_true]
    exact ⟨⟨⟨⟨h1, h2⟩, h3⟩, h4⟩, fun dep hdep => h5 dep hdep⟩

/-! ### Claim C8 — timeout failures carry a timeout-specific message and are
subject to the retry policy -/

/-- Claim C8 holds: when attempt `i` exceeds the task's timeout, the attempt
is recorded as a failure whose error message names the task and its timeout;
if retry budget remains, `retry_count` is incremented, the status is reset to
`"pending"`, and the same task is re-attempted immediately within the same
execution (the recursive call, counting one more attempt); if the budget is
exhausted the task ends `"failed"` and the timeout error escalates. -/
theorem timeout_failure_retried_with_specific_message
    (beh : Nat → AttemptOutcome) (i : Nat) (t : WorkflowTask)
    (h : beh i = AttemptOutcome.timesOut) :
    (timeout_result t).error_message
        = some ("任务超时: " ++ t.task_id ++ " (超时时间: " ++ toString t.timeout ++ "s)")
    ∧ (timeout_result t).status = "failed"
    ∧ (t.retry_count < t.max_retries →
        execute_single_task beh i t
          = ((execute_single_task beh (i + 1) (retry_task t)).1,
             (execute_single_task beh (i + 1) (retry_task t)).2.1,
             (execute_single_task beh (i + 1) (retry_task t)).2.2 + 1)
        ∧ (retry_task t).retry_count = t.retry_count + 1
        ∧ (retry_task t).status = "pending"
        ∧ (retry_task t).result = some (timeout_result t))
    ∧ (t.max_retries ≤ t.retry_count →
        execute_single_task beh i t
          = (fail_task t, Except.error (timeout_msg t), 1)
        ∧ (fail_task t).status = "failed"
        ∧ (fail_task t).result = some (timeout_result t)) := by
  refine ⟨rfl, rfl, ?_, ?_⟩
  · intro hlt
    refine ⟨?_, rfl, rfl, rfl⟩
    rw [execute_single_task_eq]
    simp only [h, executeTaskResult, if_pos hlt]
  · intro hge
    refine ⟨?_, rfl, rfl⟩
    rw [execute_single_task_eq]
    simp only [h, executeTaskResult, if_neg (Nat.not_lt.mpr hge)]

/-- Witness for C8 at a concrete input: a task with retry budget whose first
attempt times out is re-attempted, and one with no budget fails with the
timeout message. -/
theorem timeout_failure_retried_witness :
    (c7Task.retry_count < c7Task.max_retries
      ∧ execute_single_task (fun _ => AttemptOutcome.timesOut) 0 c7Task
          = ((execute_single_task (fun _ => AttemptOutcome.timesOut) 1 (retry_task c7Task)).1,
             (execute_single_task (fun _ => AttemptOutcome.timesOut) 1 (retry_task c7Task)).2.1,
             (execute_single_task (fun _ => AttemptOutcome.timesOut) 1 (retry_task c7Task)).2.2 + 1))
    ∧ (c1Task.max_retries ≤ c1Task.retry_count
      ∧ execute_single_task (fun _ => AttemptOutcome.timesOut) 0 c1Task
          = (fail_task c1Task, Except.error (timeout_msg c1Task), 1)) := by
  constructor
  · exact ⟨by decide,
      ((timeout_failure_retried_with_specific_message (fun _ => AttemptOutcome.timesOut)
        0 c7Task rfl).2.2.1 (by decide)).1⟩
  · exact ⟨by decide,
      ((timeout_failure_retried_with_specific_message (fun _ => AttemptOutcome.timesOut)
        0 c1Task rfl).2.2.2 (by decide)).1⟩

/-! ### Claim C9 — definition errors are raised immediately -/

/-- Claim C9 holds: `create_task` errors whenever the agent id is not
registered, and `add_task_to_workflow` / `execute_workflow` error whenever
the workflow id is absent.  Each check is the first statement of its method,
so the error is raised before any state is touched; in the embedding this is
visible in the error outcomes carrying no updated coordinator (the
`Except.error` / `unknownWorkflow` constructors hold only the message). -/
theorem definition_errors_raised_immediately (c : TaskCoordinator)
    (task_id task_type agent_id workflow_id : String)
    (data : List (String × String)) (dependencies : Option (List String))
    (priority : Int) (timeout : Option Nat) (task : WorkflowTask)
    (beh : String → Nat → AttemptOutcome) (sched : Nat → List String) (fuel : Nat) :
    (dictFind agent_id c.agents = none →
      create_task c task_id task_type agent_id data dependencies priority timeout
        = Except.error ("Agent不存在: " ++ agent_id))
    ∧ (dictFind workflow_id c.workflows = none →
      add_task_to_workflow c workflow_id task
          = Except.error ("工作流不存在: " ++ workflow_id)
        ∧ execute_workflow beh sched fuel c workflow_id
          = ExecOutcome.unknownWorkflow ("工作流不存在: " ++ workflow_id)) := by
  refine ⟨fun h => ?_, fun h => ⟨?_, ?_⟩⟩
  · simp [create_task, dictContains, h]
  · simp [add_task_to_workflow, h]
  · simp [execute_workflow, h]

/-- Witness for C9 on a coordinator with no registered agents or workflows. -/
theorem definition_errors_raised_immediately_witness :
    (create_task { } "t" "work" "ghost" [] none 1 none
        = Except.error ("Agent不存在: " ++ "ghost"))
    ∧ (add_task_to_workflow { } "w" c3Task
        = Except.error ("工作流不存在: " ++ "w"))
    ∧ (execute_workflow (fun _ _ => AttemptOutcome.timesOut) (fun _ => []) 1 { } "w"
        = ExecOutcome.unknownWorkflow ("工作流不存在: " ++ "w")) := by
  have h := definition_errors_raised_immediately { } "t" "work" "ghost" "w" [] none 1
    none c3Task (fun _ _ => AttemptOutcome.timesOut) (fun _ => []) 1
  exact ⟨h.1 rfl, (h.2 rfl).1, (h.2 rfl).2⟩

/-! ### Claim C10 — `send_message` errors on unknown receivers, otherwise
appends to the queue and to exactly the receiver's inbox -/

theorem dictFind_agents_update (k : String) (msg : Message)
    (m : List (String × AgentState)) :
    dictFind k (m.map (fun p => if p.1 = k then (p.1, add_message p.2 msg) else p))
      = (dictFind k m).map (fun a => add_message a msg) := by
  induction m with
  | nil => rfl
  | cons p rest ih =>
    obtain ⟨k', v⟩ := p
    dsimp only [List.map_cons]
    by_cases h : k' = k
    · rw [if_pos h, dictFind_cons, dictFind_cons, if_pos h, if_pos h]
      rfl
    · rw [if_neg h, dictFind_cons, dictFind_cons, if_neg h, if_neg h]
      exact ih

theorem dictFind_agents_update_other (other k : String) (msg : Message)
    (m : List (String × AgentState)) (h : other ≠ k) :
    dictFind other (m.map (fun p => if p.1 = k then (p.1, add_message p.2 msg) else p))
      = dictFind other m := by
  induction m with
  | nil => rfl
  | cons p rest ih =>
    obtain ⟨k', v⟩ := p
    dsimp only [List.map_cons]
    by_cases hk : k' = k
    · have hko : ¬k' = other := fun he => h (he.symm.trans hk)
      rw [if_pos hk, dictFind_cons, dictFind_cons, if_neg hko, if_neg hko]
      exact ih
    · rw [if_neg hk, dictFind_cons, dictFind_cons]
      by_cases ho : k' = other
      · rw [if_pos ho, if_pos ho]
      · rw [if_neg ho, if_neg ho]
        exact ih

/-- Claim C10 holds.  When the receiver id is not a registered agent the
call errors before building the message (the error carries no updated
state: queue and inboxes are untouched).  When the receiver is registered,
the message joins the global `message_queue`, the receiver's inbox gets
exactly that message appended, every other agent's inbox is unchanged, and
the rest of the coordinator state is unchanged. -/
theorem send_message_delivers_exactly_to_receiver (c : TaskCoordinator)
    (sender_id receiver_id content message_type : String)
    (metadata : Option (List (String × String))) :
    (dictFind receiver_id c.agents = none →
      send_message c sender_id receiver_id content message_type metadata
        = Except.error ("接收者Agent不存在: " ++ receiver_id))
    ∧ (∀ a, dictFind receiver_id c.agents = some a →
      send_message c sender_id receiver_id content message_type metadata
        = Except.ok
          { c with
            message_queue := c.message_queue
              ++ [mk_message sender_id receiver_id content message_type metadata],
            agents := c.agents.map (fun p =>
              if p.1 = receiver_id then
                (p.1, add_message p.2
                  (mk_message sender_id receiver_id content message_type metadata))
              else p) }
      ∧ (∀ c', send_message c sender_id receiver_id content message_type metadata
            = Except.ok c' →
          c'.message_queue = c.message_queue
              ++ [mk_message sender_id receiver_id content message_type metadata]
          ∧ dictFind receiver_id c'.agents
              = some (add_message a
                  (mk_message sender_id receiver_id content message_type metadata))
          ∧ (∀ other, other ≠ receiver_id →
              dictFind other c'.agents = dictFind other c.agents)
          ∧ c'.workflows = c.workflows)) := by
  constructor
  · intro h
    simp [send_message, h]
  · intro a ha
    have heq : send_message c sender_id receiver_id content message_type metadata
        = Except.ok
          { c with
            message_queue := c.message_queue
              ++ [mk_message sender_id receiver_id content message_type metadata],
            agents := c.agents.map (fun p =>
              if p.1 = receiver_id then
                (p.1, add_message p.2
                  (mk_message sender_id receiver_id content message_type metadata))
              else p) } := by
      simp [send_message, ha]
    refine ⟨heq, fun c' hc' => ?_⟩
    rw [heq] at hc'
    injection hc' with hc'
    subst hc'
    refine ⟨rfl, ?_, fun other hother => ?_, rfl⟩
    · show dictFind receiver_id (c.agents.map (fun p =>
          if p.1 = receiver_id then
            (p.1, add_message p.2
              (mk_message sender_id receiver_id content message_type metadata))
          else p)) = _
      rw [dictFind_agents_update, ha]
      rfl
    · show dictFind other (c.agents.map (fun p =>
          if p.1 = receiver_id then
            (p.1, add_message p.2
              (mk_message sender_id receiver_id content message_type metadata))
          else p)) = _
      exact dictFind_agents_update_other other receiver_id _ c.agents hother

/-- A coordinator with one registered agent, for the C10 witness. -/
def c10Coord : TaskCoordinator := { agents := [("agent_a", c1Agent)] }

/-- Witness for C10: an unknown receiver errors; a registered receiver gets
the message appended to the queue and to its inbox. -/
theorem send_message_delivers_witness :
    (send_message { } "s" "ghost" "hi" "text" none
      = Except.error ("接收者Agent不存在: " ++ "ghost"))
    ∧ (send_message c10Coord "s" "agent_a" "hi" "text" none
      = Except.ok { c10Coord with
          message_queue := c10Coord.message_queue
            ++ [mk_message "s" "agent_a" "hi" "text" none],
          agents := c10Coord.agents.map (fun p =>
            if p.1 = "agent_a" then
              (p.1, add_message p.2 (mk_message "s" "agent_a" "hi" "text" none))
            else p) }) := by
  exact ⟨(send_message_delivers_exactly_to_receiver { } "s" "ghost" "hi" "text" none).1 rfl,
    ((send_message_delivers_exactly_to_receiver c10Coord "s" "agent_a" "hi" "text"
      none).2 c1Agent rfl).1⟩

/-! ### Claim C4 — the dead-end check fails the workflow with the
unresolved-dependency enumeration -/

@[simp] theorem pyslice_nil (n : Int) : pyslice n ([] : List α) = [] := by
  unfold pyslice
  split <;> simp

/-- Claim C4 holds: at any loop iteration whose state has an empty ready
set, nothing dispatched, and at least one uncompleted task, the step
neither starts nor awaits anything and raises the unresolved-dependency
error enumerating, for every uncompleted task, each of its dependencies
missing from the completed set — so a cyclic workflow fails
deterministically instead of looping. -/
theorem deadlock_check_raises_unresolved_pairs
    (beh : String → Nat → AttemptOutcome) (choice : List String) (maxC : Nat)
    (st : ExecState)
    (hready : get_ready_tasks st.tasks st.completed st.running = [])
    (hrun : st.running = [])
    (hrem : st.tasks.filter (fun t => !(st.completed.contains t.task_id)) ≠ []) :
    schedStep beh choice maxC st =
      (StepResult.err st
        (unresolved_pairs
          (st.tasks.filter (fun t => !(st.completed.contains t.task_id)))
          st.completed), []) := by
  have hrem' : (st.tasks.filter
      (fun t => !(st.completed.contains t.task_id))).isEmpty = false := by
    cases hf : st.tasks.filter (fun t => !(st.completed.contains t.task_id)) with
    | nil => exact absurd hf hrem
    | cons a l => rfl
  have hready' : get_ready_tasks st.tasks st.completed [] = [] := by
    rw [← hrun]
    exact hready
  simp [schedStep, startPhase, hrun, hready', hrem']
  have hx : ¬ ∀ a ∈ st.tasks, a.task_id ∈ st.completed := by
    intro hall
    apply hrem
    rw [List.filter_eq_nil_iff]
    intro a ha
    simp only [contains_true_iff.mpr (hall a ha), Bool.not_true, Bool.false_eq_true,
      not_false_eq_true]
  rw [if_neg hx]
  have hst : ({ tasks := st.tasks, completed := st.completed,
                running := [], progress := st.progress } : ExecState) = st := by
    rw [← hrun]
  rw [hst]

/-- A self-dependent task: the cycle scenario from the spec. -/
def c4Task : WorkflowTask :=
  { task_id := "x", task_type := "work", agent_id := "agent_a",
    dependencies := ["x"] }

def c4State : ExecState := { tasks := [c4Task] }

/-- Witness for C4: the workflow whose only task depends on itself fails
the very first iteration with the edge `x -> x`. -/
theorem deadlock_check_witness :
    schedStep (fun _ _ => AttemptOutcome.timesOut) [] 5 c4State
      = (StepResult.err c4State ["x -> x"], []) := by
  have h := deadlock_check_raises_unresolved_pairs
    (fun _ _ => AttemptOutcome.timesOut) [] 5 c4State (by decide) rfl (by decide)
  rw [h]
  decide

/-! ### Claim C5 — the running set never exceeds `max_concurrent_tasks` -/

theorem startPhase_running_le (maxC : Nat) (st : ExecState)
    (h : st.running.length ≤ maxC) :
    (startPhase maxC st).running.length ≤ maxC := by
  unfold startPhase
  dsimp only
  rw [List.length_append, List.length_map]
  have h0 : (0 : Int) ≤ (maxC : Int) - st.running.length := by omega
  have hp := pyslice_length_le ((maxC : Int) - st.running.length) h0
    (get_ready_tasks st.tasks st.completed st.running)
  omega

theorem processDone_running_le (beh : String → Nat → AttemptOutcome)
    (done : List String) (st : ExecState) :
    (processDone beh done st).1.running.length ≤ st.running.length := by
  induction done generalizing st with
  | nil => simp [processDone]
  | cons id rest ih =>
    rw [processDone]
    exact le_trans (ih _) (List.Sublist.length_le (List.erase_sublist id st.running))

theorem schedStep_running_le (beh : String → Nat → AttemptOutcome)
    (choice : List String) (maxC : Nat) (st : ExecState)
    (h : st.running.length ≤ maxC) :
    (stepResultState (schedStep beh choice maxC st).1).running.length ≤ maxC := by
  have hsp := startPhase_running_le maxC st h
  unfold schedStep
  dsimp only
  set sp := startPhase maxC st with hspdef
  set st1 : ExecState := { tasks := sp.tasks, completed := st.completed,
                           running := sp.running, progress := st.progress } with hst1
  set pr := if sp.running.isEmpty then (st1, ([] : List Rat))
            else processDone beh (pickDone choice sp.running) st1 with hpr
  have hle : pr.1.running.length ≤ maxC := by
    rw [hpr]
    split
    · exact hsp
    · exact le_trans (processDone_running_le _ _ _) hsp
  split
  · split
    · exact hle
    · exact hle
  · exact hle

theorem runLoop_running_le (beh : String → Nat → AttemptOutcome)
    (sched : Nat → List String) (maxC : Nat) :
    ∀ (fuel k : Nat) (st : ExecState), st.running.length ≤ maxC →
      ∀ s ∈ (runLoop beh sched maxC fuel k st).states,
        s.running.length ≤ maxC ∧ (startPhase maxC s).running.length ≤ maxC := by
  intro fuel
  induction fuel with
  | zero =>
    intro k st h s hs
    simp only [runLoop, List.mem_singleton] at hs
    subst hs
    exact ⟨h, startPhase_running_le _ _ h⟩
  | succ fuel ih =>
    intro k st h s hs
    rw [runLoop] at hs
    by_cases hcond : st.completed.length < st.tasks.length
    · rw [if_pos hcond] at hs
      rcases hstep : schedStep beh (sched k) maxC st with ⟨res, ws⟩
      rw [hstep] at hs
      have hres : (stepResultState res).running.length ≤ maxC := by
        have := schedStep_running_le beh (sched k) maxC st h
        rw [hstep] at this
        exact this
      cases res with
      | next st' =>
        simp only [List.mem_cons] at hs
        rcases hs with rfl | hs
        · exact ⟨h, startPhase_running_le _ _ h⟩
        · exact ih (k + 1) st' hres s hs
      | brk st' =>
        simp only [List.mem_cons, List.not_mem_nil, or_false] at hs
        rcases hs with rfl | rfl
        · exact ⟨h, startPhase_running_le _ _ h⟩
        · exact ⟨hres, startPhase_running_le _ _ hres⟩
      | err st' pairs =>
        simp only [List.mem_cons, List.not_mem_nil, or_false] at hs
        rcases hs with rfl | rfl
        · exact ⟨h, startPhase_running_le _ _ h⟩
        · exact ⟨hres, startPhase_running_le _ _ hres⟩
    · rw [if_neg hcond] at hs
      simp only [List.mem_singleton] at hs
      subst hs
      exact ⟨h, startPhase_running_le _ _ h⟩

/-- Claim C5 holds: a workflow execution starts with nothing running, each
iteration starts at most `max_concurrent_tasks − |running|` new tasks
(`ready_tasks[:available_slots]`), and completions only shrink the running
set — so at every loop boundary, and even just after dispatching
(`startPhase`), the running set holds at most `max_concurrent_tasks` ids. -/
theorem running_tasks_bounded_by_max_concurrent
    (beh : String → Nat → AttemptOutcome) (sched : Nat → List String)
    (maxC fuel : Nat) (wf : Workflow) :
    ∀ s ∈ (runLoop beh sched maxC fuel 0 (initState wf)).states,
      s.running.length ≤ maxC ∧ (startPhase maxC s).running.length ≤ maxC :=
  runLoop_running_le beh sched maxC fuel 0 (initState wf) (Nat.zero_le maxC)

/-- Witness for C5: the bound applied to the initial state of the
single-task workflow with `max_concurrent_tasks = 1`. -/
theorem running_tasks_bounded_witness :
    (initState c1Workflow).running.length ≤ 1
    ∧ (startPhase 1 (initState c1Workflow)).running.length ≤ 1 :=
  running_tasks_bounded_by_max_concurrent (fun _ _ => AttemptOutcome.timesOut)
    (fun _ => ["t1"]) 1 3 c1Workflow (initState c1Workflow) (by decide)

/-! ### Claim C6 — progress monotonicity and the 100%-iff-completed law -/

theorem prog_formula_mono (c c' T : Nat) (h : c ≤ c') :
    (c : Rat) / (T : Rat) * 100 ≤ (c' : Rat) / (T : Rat) * 100 := by
  rcases Nat.eq_zero_or_pos T with rfl | hT
  · simp
  · have hT' : (0 : Rat) < (T : Rat) := by exact_mod_cast hT
    have hcc : (c : Rat) ≤ (c' : Rat) := by exact_mod_cast h
    rw [div_eq_mul_inv, div_eq_mul_inv]
    have hinv : (0 : Rat) ≤ ((T : Rat))⁻¹ := inv_nonneg.mpr (le_of_lt hT')
    nlinarith

theorem prog_formula_le_100 (c T : Nat) (h : c ≤ T) :
    (c : Rat) / (T : Rat) * 100 ≤ 100 := by
  rcases Nat.eq_zero_or_pos T with rfl | hT
  · interval_cases c
    simp
  · have hT' : (0 : Rat) < (T : Rat) := by exact_mod_cast hT
    have hdiv : (c : Rat) / (T : Rat) ≤ 1 := by
      rw [div_le_one hT']
      exact_mod_cast h
    nlinarith

theorem prog_formula_lt_100 (c T : Nat) (h : c < T) :
    (c : Rat) / (T : Rat) * 100 < 100 := by
  have hT' : (0 : Rat) < (T : Rat) := by
    exact_mod_cast Nat.pos_of_ne_zero (by omega)
  have hdiv : (c : Rat) / (T : Rat) < 1 := by
    rw [div_lt_one hT']
    exact_mod_cast h
  nlinarith

/-- The scheduler-loop invariant over the fixed id list of the workflow's
tasks: task ids never change, the completed set is duplicate-free and holds
only task ids, the running set holds only task ids, and the stored progress
equals the completed fraction. -/
def Inv (ids : List String) (st : ExecState) : Prop :=
  st.tasks.map WorkflowTask.task_id = ids
  ∧ st.completed.Nodup
  ∧ (∀ x ∈ st.completed, x ∈ ids)
  ∧ (∀ x ∈ st.running, x ∈ ids)
  ∧ st.progress = (st.completed.length : Rat) / (st.tasks.length : Rat) * 100

theorem length_lt_of_nodup_subset_missing {l ids : List String} (hnd : l.Nodup)
    (hids : ids.Nodup) (hsub : ∀ x ∈ l, x ∈ ids) (a : String) (ha : a ∈ ids)
    (hna : a ∉ l) : l.length < ids.length := by
  have hsub' : l ⊆ ids.erase a := fun x hx =>
    (List.Nodup.mem_erase_iff hids).mpr ⟨fun he => hna (he ▸ hx), hsub x hx⟩
  have h1 : l.length ≤ (ids.erase a).length :=
    (List.subperm_of_subset hnd hsub').length_le
  have h2 : (ids.erase a).length = ids.length - 1 := List.length_erase_of_mem ha
  have h3 : 0 < ids.length := List.length_pos_of_mem ha
  omega

theorem length_le_of_nodup_subset {l ids : List String} (hnd : l.Nodup)
    (hsub : ∀ x ∈ l, x ∈ ids) : l.length ≤ ids.length :=
  (List.subperm_of_subset hnd hsub).length_le

/-- `startPhase` preserves the invariant (its state has the marked tasks,
the enlarged running set, and untouched completed set and progress). -/
theorem startPhase_inv (maxC : Nat) (st : ExecState) (ids : List String)
    (h : Inv ids st) :
    Inv ids { tasks := (startPhase maxC st).tasks, completed := st.completed,
              running := (startPhase maxC st).running, progress := st.progress } := by
  obtain ⟨h1, h2, h3, h4, h5⟩ := h
  have htasks : (startPhase maxC st).tasks.map WorkflowTask.task_id = ids := by
    unfold startPhase
    dsimp only
    rw [List.map_map]
    rw [← h1]
    apply List.map_congr_left
    intro t _
    dsimp only [Function.comp]
    split
    · rfl
    · rfl
  refine ⟨htasks, h2, h3, ?_, ?_⟩
  · intro x hx
    unfold startPhase at hx
    dsimp only at hx
    rw [List.mem_append] at hx
    rcases hx with hx | hx
    · exact h4 x hx
    · rw [List.mem_map] at hx
      obtain ⟨t, ht, rfl⟩ := hx
      have ht' : t ∈ get_ready_tasks st.tasks st.completed st.running :=
        (pyslice_sublist _ _).mem ht
      have ht'' : t ∈ st.tasks := by
        rw [get_ready_tasks, mem_sortByPriorityDesc] at ht'
        exact (List.mem_filter.mp ht').1
      rw [← h1]
      exact List.mem_map_of_mem _ ht''
  · dsimp only
    rw [h5]
    have : (startPhase maxC st).tasks.length = st.tasks.length := by
      have := congrArg List.length htasks
      rw [List.length_map] at this
      have h1l := congrArg List.length h1
      rw [List.length_map] at h1l
      omega
    rw [this]

/-- `processOne` preserves the invariant, never decreases the stored
progress, and never writes a value above 100. -/
theorem processOne_inv (beh : String → Nat → AttemptOutcome) (id : String)
    (st : ExecState) (ids : List String) (hinv : Inv ids st) (hid : id ∈ ids) :
    Inv ids (processOne beh id st)
    ∧ st.progress ≤ (processOne beh id st).progress
    ∧ (processOne beh id st).progress ≤ 100 := by
  obtain ⟨h1, h2, h3, h4, h5⟩ := hinv
  have htasks : (processOne beh id st).tasks.map WorkflowTask.task_id
      = st.tasks.map WorkflowTask.task_id := by
    unfold processOne
    dsimp only
    cases hfind : st.tasks.find? (fun t => t.task_id == id) with
    | none => rfl
    | some t =>
      rw [List.map_map]
      apply List.map_congr_left
      intro u _
      dsimp only [Function.comp]
      split
      · rename_i hu
        rw [execute_single_task_task_id]
        have hbeq := List.find?_some hfind
        have ht : t.task_id = id := by simpa [beq_iff_eq] using hbeq
        rw [ht, hu]
      · rfl
  have hlen : (processOne beh id st).tasks.length = st.tasks.length := by
    have := congrArg List.length htasks
    simpa using this
  have hcompleted : (processOne beh id st).completed
      = if st.completed.contains id then st.completed
        else st.completed ++ [id] := rfl
  have hcnodup : (processOne beh id st).completed.Nodup := by
    rw [hcompleted]
    split
    · exact h2
    · rename_i hc
      have hnotmem : id ∉ st.completed :=
        contains_false_iff.mp (Bool.not_eq_true _ ▸ hc)
      simp [List.nodup_append, h2, hnotmem]
  have hcsub : ∀ x ∈ (processOne beh id st).completed, x ∈ ids := by
    rw [hcompleted]
    split
    · exact h3
    · intro x hx
      rcases List.mem_append.mp hx with hx | hx
      · exact h3 x hx
      · rw [List.mem_singleton] at hx
        exact hx ▸ hid
  have hclen : st.completed.length ≤ (processOne beh id st).completed.length := by
    rw [hcompleted]
    split
    · exact le_refl _
    · simp
  have hprog : (processOne beh id st).progress
      = ((processOne beh id st).completed.length : Rat)
        / ((processOne beh id st).tasks.length : Rat) * 100 := rfl
  have hidslen : ids.length = st.tasks.length := by
    have := congrArg List.length h1
    simpa using this.symm
  refine ⟨⟨htasks.trans h1, hcnodup, hcsub, ?_, hprog⟩, ?_, ?_⟩
  · intro x hx
    exact h4 x (List.mem_of_mem_erase hx)
  · rw [h5, hprog, hlen]
    exact prog_formula_mono _ _ _ hclen
  · rw [hprog, hlen]
    have hcle : (processOne beh id st).completed.length ≤ ids.length :=
      length_le_of_nodup_subset hcnodup hcsub
    exact prog_formula_le_100 _ _ (by omega)

/-- `processDone` preserves the invariant; its progress writes form a
non-decreasing chain starting at the incoming progress, end at the final
state's progress, and never exceed 100. -/
theorem processDone_spec (beh : String → Nat → AttemptOutcome) :
    ∀ (done : List String) (st : ExecState) (ids : List String), Inv ids st →
      (∀ x ∈ done, x ∈ ids) →
      Inv ids (processDone beh done st).1
      ∧ List.Chain' (· ≤ ·) (st.progress :: (processDone beh done st).2)
      ∧ (st.progress :: (processDone beh done st).2).getLast?
          = some (processDone beh done st).1.progress
      ∧ (∀ w ∈ (processDone beh done st).2, w ≤ 100) := by
  intro done
  induction done with
  | nil =>
    intro st ids hinv _
    exact ⟨hinv, by simp [processDone], by simp [processDone], by simp [processDone]⟩
  | cons id rest ih =>
    intro st ids hinv hdone
    obtain ⟨hinv', hmono, hle⟩ :=
      processOne_inv beh id st ids hinv (hdone id (List.mem_cons_self _ _))
    obtain ⟨ih1, ih2, ih3, ih4⟩ := ih (processOne beh id st) ids hinv'
      (fun x hx => hdone x (List.mem_cons_of_mem _ hx))
    have hD : processDone beh (id :: rest) st
        = ((processDone beh rest (processOne beh id st)).1,
           (processOne beh id st).progress
             :: (processDone beh rest (processOne beh id st)).2) := rfl
    refine ⟨?_, ?_, ?_, ?_⟩
    · rw [hD]
      exact ih1
    · rw [hD]
      exact List.chain'_cons.mpr ⟨hmono, ih2⟩
    · rw [hD]
      rw [List.getLast?_cons_cons]
      exact ih3
    · rw [hD]
      intro w hw
      rcases List.mem_cons.mp hw with rfl | hw
      · exact hle
      · exact ih4 w hw

theorem pickDone_subset (choice running : List String) :
    ∀ x ∈ pickDone choice running, x ∈ running := by
  intro x hx
  unfold pickDone at hx
  dsimp only at hx
  split at hx
  · exact (List.take_sublist 1 running).subset hx
  · exact (List.mem_filter.mp hx).1

/-- One scheduler iteration preserves the invariant; its progress writes are
a non-decreasing chain from the incoming progress ending at the resulting
state's progress and bounded by 100; and an `err` result always leaves an
uncompleted task in its state. -/
theorem schedStep_spec (beh : String → Nat → AttemptOutcome)
    (choice : List String) (maxC : Nat) (st : ExecState) (ids : List String)
    (hinv : Inv ids st) :
    Inv ids (stepResultState (schedStep beh choice maxC st).1)
    ∧ List.Chain' (· ≤ ·) (st.progress :: (schedStep beh choice maxC st).2)
    ∧ (st.progress :: (schedStep beh choice maxC st).2).getLast?
        = some (stepResultState (schedStep beh choice maxC st).1).progress
    ∧ (∀ w ∈ (schedStep beh choice maxC st).2, w ≤ 100)
    ∧ (∀ st2 pairs, (schedStep beh choice maxC st).1 = StepResult.err st2 pairs →
        ∃ t ∈ st2.tasks, t.task_id ∉ st2.completed) := by
  unfold schedStep
  dsimp only
  set sp := startPhase maxC st with hsp
  set st1 : ExecState := { tasks := sp.tasks, completed := st.completed,
                           running := sp.running, progress := st.progress } with hst1
  set pr := if sp.running.isEmpty then (st1, ([] : List Rat))
            else processDone beh (pickDone choice sp.running) st1 with hprdef
  have hinv1 : Inv ids st1 := startPhase_inv maxC st ids hinv
  have hpr : Inv ids pr.1
      ∧ List.Chain' (· ≤ ·) (st.progress :: pr.2)
      ∧ (st.progress :: pr.2).getLast? = some pr.1.progress
      ∧ (∀ w ∈ pr.2, w ≤ 100) := by
    rw [hprdef]
    split
    · exact ⟨hinv1, List.chain'_singleton _, rfl, by simp⟩
    · have hpick : ∀ x ∈ pickDone choice sp.running, x ∈ ids := by
        intro x hx
        exact hinv1.2.2.2.1 x (pickDone_subset choice sp.running x hx)
      exact processDone_spec beh (pickDone choice sp.running) st1 ids hinv1 hpick
  split
  · split
    · exact ⟨hpr.1, hpr.2.1, hpr.2.2.1, hpr.2.2.2, fun st2 pairs h => nomatch h⟩
    · rename_i hne
      refine ⟨hpr.1, hpr.2.1, hpr.2.2.1, hpr.2.2.2, fun st2 pairs h => ?_⟩
      injection h with h1 h2
      subst h1
      cases hrem : pr.1.tasks.filter (fun t => !(pr.1.completed.contains t.task_id)) with
      | nil => rw [hrem] at hne; exact absurd rfl hne
      | cons a l =>
        have ha : a ∈ pr.1.tasks.filter (fun t => !(pr.1.completed.contains t.task_id)) := by
          rw [hrem]
          exact List.mem_cons_self _ _
        have hmem := List.mem_filter.mp ha
        refine ⟨a, hmem.1, ?_⟩
        have hcf : pr.1.completed.contains a.task_id = false := by
          have := hmem.2
          cases hcc : pr.1.completed.contains a.task_id
          · rfl
          · rw [hcc] at this
            cases this
        exact contains_false_iff.mp hcf
  · exact ⟨hpr.1, hpr.2.1, hpr.2.2.1, hpr.2.2.2, fun st2 pairs h => nomatch h⟩

/-- The loop's progress writes form a non-decreasing chain from the initial
progress, never exceed 100, and a `depsFailed` result satisfies the
invariant and leaves an uncompleted task. -/
theorem runLoop_spec (beh : String → Nat → AttemptOutcome)
    (sched : Nat → List String) (maxC : Nat) (ids : List String) :
    ∀ (fuel k : Nat) (st : ExecState), Inv ids st →
      List.Chain' (· ≤ ·) (st.progress :: (runLoop beh sched maxC fuel k st).writes)
      ∧ (∀ w ∈ (runLoop beh sched maxC fuel k st).writes, w ≤ 100)
      ∧ (∀ st2 pairs,
          (runLoop beh sched maxC fuel k st).result = LoopResult.depsFailed st2 pairs →
          Inv ids st2 ∧ ∃ t ∈ st2.tasks, t.task_id ∉ st2.completed) := by
  intro fuel
  induction fuel with
  | zero =>
    intro k st hinv
    exact ⟨List.chain'_singleton _, by simp [runLoop],
      fun st2 pairs h => nomatch h⟩
  | succ fuel ih =>
    intro k st hinv
    have hstep := schedStep_spec beh (sched k) maxC st ids hinv
    rw [runLoop]
    by_cases hcond : st.completed.length < st.tasks.length
    · rw [if_pos hcond]
      rcases hs : schedStep beh (sched k) maxC st with ⟨res, ws⟩
      rw [hs] at hstep
      cases res with
      | next st' =>
        dsimp only [stepResultState] at hstep ⊢
        obtain ⟨hinv', hch, hlast, hwle, _⟩ := hstep
        obtain ⟨ihch, ihwle, iherr⟩ := ih (k + 1) st' hinv'
        refine ⟨?_, ?_, ?_⟩
        · have hsplit : st.progress
              :: (ws ++ (runLoop beh sched maxC fuel (k + 1) st').writes)
              = (st.progress :: ws)
                ++ (runLoop beh sched maxC fuel (k + 1) st').writes := rfl
          rw [hsplit]
          refine List.Chain'.append hch ihch.tail ?_
          intro x hx y hy
          rw [hlast] at hx
          rw [Option.mem_def, Option.some_inj] at hx
          subst hx
          exact (List.chain'_cons'.mp ihch).1 y hy
        · intro w hw
          rcases List.mem_append.mp hw with hw | hw
          · exact hwle w hw
          · exact ihwle w hw
        · exact iherr
      | brk st' =>
        dsimp only [stepResultState] at hstep ⊢
        obtain ⟨hinv', hch, hlast, hwle, _⟩ := hstep
        exact ⟨hch, hwle, fun st2 pairs h => nomatch h⟩
      | err st' pairs0 =>
        dsimp only [stepResultState] at hstep ⊢
        obtain ⟨hinv', hch, hlast, hwle, herr⟩ := hstep
        refine ⟨hch, hwle, ?_⟩
        intro st2 pairs h
        injection h with h1 h2
        subst h1
        exact ⟨hinv', herr st' pairs0 rfl⟩
    · rw [if_neg hcond]
      exact ⟨List.chain'_singleton _, by simp, fun st2 pairs h => nomatch h⟩

/-- Claim C6 holds (for a fresh workflow, `progress = 0`, with distinct task
ids): every value the loop writes to `workflow.progress` is a non-decreasing
chain bounded by 100; when `execute_workflow` returns normally the workflow
ends `completed` with `progress = 100` (set explicitly on the success path);
and when it raises, the workflow ends `failed` with `progress` strictly
below 100 — so progress reaches 100 iff the status becomes completed. -/
theorem progress_monotone_and_hundred_iff_completed
    (beh : String → Nat → AttemptOutcome) (sched : Nat → List String)
    (fuel : Nat) (c : TaskCoordinator) (workflow_id : String) (wf : Workflow)
    (hfind : dictFind workflow_id c.workflows = some wf)
    (hprog : wf.progress = 0)
    (hnd : (wf.tasks.map WorkflowTask.task_id).Nodup) :
    List.Chain' (· ≤ ·) (wf.progress ::
      (runLoop beh sched c.max_concurrent_tasks fuel 0 (initState wf)).writes)
    ∧ (∀ w ∈ (runLoop beh sched c.max_concurrent_tasks fuel 0 (initState wf)).writes,
        w ≤ 100)
    ∧ (∀ c' wf2, execute_workflow beh sched fuel c workflow_id
          = ExecOutcome.completedOk c' wf2 →
        wf2.progress = 100 ∧ wf2.status = WorkflowStatus.completed)
    ∧ (∀ c' wf2 msg, execute_workflow beh sched fuel c workflow_id
          = ExecOutcome.raisedFailed c' wf2 msg →
        wf2.status = WorkflowStatus.failed ∧ wf2.progress < 100) := by
  have hinv0 : Inv (wf.tasks.map WorkflowTask.task_id) (initState wf) := by
    refine ⟨rfl, List.nodup_nil, by simp [initState], by simp [initState], ?_⟩
    show wf.progress = ((0 : Nat) : Rat) / (wf.tasks.length : Rat) * 100
    rw [hprog]
    simp
  have hloop := runLoop_spec beh sched c.max_concurrent_tasks
    (wf.tasks.map WorkflowTask.task_id) fuel 0 (initState wf) hinv0
  refine ⟨hloop.1, hloop.2.1, ?_, ?_⟩
  · intro c' wf2 h
    unfold execute_workflow at h
    rw [hfind] at h
    dsimp only at h
    cases hres : (runLoop beh sched c.max_concurrent_tasks fuel 0
        (initState { wf with status := WorkflowStatus.running })).result with
    | finished stf =>
      rw [hres] at h
      dsimp only at h
      injection h with h1 h2
      subst h2
      exact ⟨rfl, rfl⟩
    | depsFailed stf pairs =>
      rw [hres] at h
      dsimp only at h
      exact nomatch h
    | outOfFuel stf =>
      rw [hres] at h
      dsimp only at h
      exact nomatch h
  · intro c' wf2 msg h
    unfold execute_workflow at h
    rw [hfind] at h
    dsimp only at h
    cases hres : (runLoop beh sched c.max_concurrent_tasks fuel 0
        (initState { wf with status := WorkflowStatus.running })).result with
    | finished stf =>
      rw [hres] at h
      dsimp only at h
      exact nomatch h
    | outOfFuel stf =>
      rw [hres] at h
      dsimp only at h
      exact nomatch h
    | depsFailed stf pairs =>
      rw [hres] at h
      dsimp only at h
      injection h with h1 h2 h3
      subst h2
      refine ⟨rfl, ?_⟩
      obtain ⟨hinvf, t, ht, hnt⟩ := hloop.2.2 stf pairs hres
      obtain ⟨f1, f2, f3, f4, f5⟩ := hinvf
      have hTlen : stf.tasks.length = (wf.tasks.map WorkflowTask.task_id).length := by
        have := congrArg List.length f1
        simpa using this
      have hmemids : t.task_id ∈ wf.tasks.map WorkflowTask.task_id := by
        rw [← f1]
        exact List.mem_map_of_mem _ ht
      have hlt : stf.completed.length < (wf.tasks.map WorkflowTask.task_id).length :=
        length_lt_of_nodup_subset_missing f2 hnd f3 t.task_id hmemids hnt
      show stf.progress < 100
      rw [f5, hTlen]
      exact prog_formula_lt_100 _ _ hlt

/-- Workflow for the C6 witness: two tasks in a dependency chain whose
worker succeeds on every attempt. -/
def c6TaskA : WorkflowTask :=
  { task_id := "a6", task_type := "work", agent_id := "agent_a", priority := 3 }

def c6TaskB : WorkflowTask :=
  { task_id := "b6", task_type := "work", agent_id := "agent_a",
    dependencies := ["a6"] }

def c6Workflow : Workflow :=
  { workflow_id := "w6", name := "W6", description := "",
    tasks := [c6TaskA, c6TaskB] }

def c6Coord : TaskCoordinator := { workflows := [("w6", c6Workflow)] }

def c6Beh : String → Nat → AttemptOutcome :=
  fun id _ => AttemptOutcome.returns
    { agent_id := "agent_a", task_id := id, status := "success",
      result := some "ok" }

/-- Witness for C6 on the concrete two-task workflow. -/
theorem progress_monotone_witness :
    List.Chain' (· ≤ ·) (c6Workflow.progress ::
      (runLoop c6Beh (fun _ => ["a6", "b6"]) c6Coord.max_concurrent_tasks 4 0
        (initState c6Workflow)).writes)
    ∧ (∀ w ∈ (runLoop c6Beh (fun _ => ["a6", "b6"]) c6Coord.max_concurrent_tasks 4 0
        (initState c6Workflow)).writes, w ≤ 100)
    ∧ (∀ c' wf2, execute_workflow c6Beh (fun _ => ["a6", "b6"]) 4 c6Coord "w6"
          = ExecOutcome.completedOk c' wf2 →
        wf2.progress = 100 ∧ wf2.status = WorkflowStatus.completed)
    ∧ (∀ c' wf2 msg, execute_workflow c6Beh (fun _ => ["a6", "b6"]) 4 c6Coord "w6"
          = ExecOutcome.raisedFailed c' wf2 msg →
        wf2.status = WorkflowStatus.failed ∧ wf2.progress < 100) :=
  progress_monotone_and_hundred_iff_completed c6Beh (fun _ => ["a6", "b6"]) 4
    c6Coord "w6" c6Workflow rfl rfl (by decide)

end MultiAgentDemo
